import Mathlib

/-!
Shallow embedding of the FitPet server core: the in-memory storage layer
(`storage.ts`, class `MemStorage`), the HTTP route handlers that the claims
concern (`routes.ts`), and the client-side mood classifier
(`PetContext.tsx`).  JavaScript numbers holding integral attribute values
are modelled as `Int`; `Date` objects are modelled by a record carrying the
components the code inspects (`getFullYear`, `getMonth`, `getDate`) plus an
opaque time-of-day component so that two dates can denote the same calendar
day while being different timestamps.  JavaScript `Map`s are modelled as
insertion-ordered association lists, since the code iterates over
`map.values()` in insertion order.
-/

namespace FitPet

/-- Model of a JS `Date`: the calendar components the code reads, plus the
time of day, so that equality of `Date`s is finer than calendar-day
equality. -/
structure Date where
  year : Int
  month : Nat
  day : Nat
  timeOfDay : Nat
deriving DecidableEq, Repr

/-- Calendar-day equality as computed in `routes.ts` lines 316-318:
`getDate`, `getMonth` and `getFullYear` all agree (time of day ignored). -/
def sameDay (a b : Date) : Bool :=
  a.day == b.day && a.month == b.month && a.year == b.year

/-- Row of `users` (shared schema) — (shared schema): id, username, password, streak and the three
cumulative stat counters, plus creation time. -/
structure User where
  id : Nat
  username : String
  password : String
  streak : Int
  caloriesBurned : Int
  activeMinutes : Int
  completedWorkouts : Int
  createdAt : Date
deriving DecidableEq, Repr

/-- The pet species enum of the shared schema. -/
inductive PetType where
  | cat | dog | rabbit | fox | hamster
deriving DecidableEq, Repr

/-- Row of `pets` (shared schema). -/
structure Pet where
  id : Nat
  userId : Nat
  name : String
  type : PetType
  health : Int
  hunger : Int
  happiness : Int
  level : Int
  xp : Int
  lastFed : Date
  lastPlayed : Date
  lastGroomed : Date
deriving DecidableEq, Repr

/-- Row of `workouts` (shared schema). -/
structure Workout where
  id : Nat
  name : String
  description : String
  duration : Int
  calories : Int
  difficulty : String
  type : String
deriving DecidableEq, Repr

/-- Row of `user_workouts` (shared schema): a workout assignment. -/
structure UserWorkout where
  id : Nat
  userId : Nat
  workoutId : Nat
  completed : Bool
  scheduledFor : Date
  completedAt : Option Date
deriving DecidableEq, Repr

/-- Model of `Partial<Pet>`: the update object accepted by `MemStorage.updatePet`.
Each field is optional; an absent field leaves the pet's field untouched in
the spread `{...pet, ...updates}`. -/
structure PetUpdate where
  id : Option Nat := none
  userId : Option Nat := none
  name : Option String := none
  type : Option PetType := none
  health : Option Int := none
  hunger : Option Int := none
  happiness : Option Int := none
  level : Option Int := none
  xp : Option Int := none
  lastFed : Option Date := none
  lastPlayed : Option Date := none
  lastGroomed : Option Date := none
deriving DecidableEq, Repr

/-- Insertion-ordered association list modelling a JS `Map<number, α>`. -/
abbrev JsMap (α : Type) : Type := List (Nat × α)

/-- Model of `map.get(k)`. -/
def mapGet {α : Type} (l : JsMap α) (k : Nat) : Option α :=
  (l.find? (fun p => p.1 == k)).map (fun p => p.2)

/-- Model of `map.set(k, v)`: replace in place when the key exists (preserving
insertion order, as JS `Map.set` does), otherwise append. -/
def mapSet {α : Type} (l : JsMap α) (k : Nat) (v : α) : JsMap α :=
  if l.any (fun p => p.1 == k) then
    l.map (fun p => if p.1 == k then (k, v) else p)
  else
    l ++ [(k, v)]

/-- Model of `Array.from(map.values())`: the values in insertion order. -/
def mapValues {α : Type} (l : JsMap α) : List α :=
  l.map (fun p => p.2)

/-- The `MemStorage` state: the four maps the claims touch and their id
counters (the exercises map plays no role in any claim). -/
structure Store where
  users : JsMap User
  pets : JsMap Pet
  workouts : JsMap Workout
  userWorkouts : JsMap UserWorkout
  userIdCounter : Nat
  petIdCounter : Nat
  workoutIdCounter : Nat
  userWorkoutIdCounter : Nat
deriving DecidableEq, Repr

/-- Model of `MemStorage.getUser`. -/
def getUser (s : Store) (id : Nat) : Option User :=
  mapGet s.users id

/-- Model of `MemStorage.updateUserStats` (storage.ts lines 124-141): look the user
up; on success add each delta to the corresponding cumulative counter and
store the result, otherwise return `undefined` and leave the map alone. -/
def updateUserStats (s : Store) (id : Nat) (caloriesBurned activeMinutes completedWorkouts : Int) :
    Option User × Store :=
  match getUser s id with
  | none => (none, s)
  | some user =>
    let updatedUser : User :=
      { user with
        caloriesBurned := user.caloriesBurned + caloriesBurned
        activeMinutes := user.activeMinutes + activeMinutes
        completedWorkouts := user.completedWorkouts + completedWorkouts }
    (some updatedUser, { s with users := mapSet s.users id updatedUser })

/-- Model of `MemStorage.getPet`. -/
def getPet (s : Store) (id : Nat) : Option Pet :=
  mapGet s.pets id

/-- Model of `MemStorage.getPetByUserId`: first pet (in insertion order) owned by the
user. -/
def getPetByUserId (s : Store) (userId : Nat) : Option Pet :=
  (mapValues s.pets).find? (fun pet => pet.userId == userId)

/-- The body of `MemStorage.updatePet` applied to a pet that was found
(storage.ts lines 176-181): spread the updates over the pet, then clamp
`health`, `hunger` and `happiness` from above at 100.  The source contains
no lower-bound clamp. -/
def applyPetUpdate (pet : Pet) (updates : PetUpdate) : Pet :=
  let merged : Pet :=
    { id := updates.id.getD pet.id
      userId := updates.userId.getD pet.userId
      name := updates.name.getD pet.name
      type := updates.type.getD pet.type
      health := updates.health.getD pet.health
      hunger := updates.hunger.getD pet.hunger
      happiness := updates.happiness.getD pet.happiness
      level := updates.level.getD pet.level
      xp := updates.xp.getD pet.xp
      lastFed := updates.lastFed.getD pet.lastFed
      lastPlayed := updates.lastPlayed.getD pet.lastPlayed
      lastGroomed := updates.lastGroomed.getD pet.lastGroomed }
  { merged with
    health := if merged.health > 100 then 100 else merged.health
    hunger := if merged.hunger > 100 then 100 else merged.hunger
    happiness := if merged.happiness > 100 then 100 else merged.happiness }

/-- Model of `MemStorage.updatePet` (storage.ts lines 172-185). -/
def updatePet (s : Store) (id : Nat) (updates : PetUpdate) : Option Pet × Store :=
  match getPet s id with
  | none => (none, s)
  | some pet =>
    let updatedPet := applyPetUpdate pet updates
    (some updatedPet, { s with pets := mapSet s.pets id updatedPet })

/-- Model of `MemStorage.getWorkout`. -/
def getWorkout (s : Store) (id : Nat) : Option Workout :=
  mapGet s.workouts id

/-- Model of `MemStorage.getUserWorkout`. -/
def getUserWorkout (s : Store) (id : Nat) : Option UserWorkout :=
  mapGet s.userWorkouts id

/-- Model of `MemStorage.getUserWorkoutsByUserId`: the user's assignments in
insertion order, each paired with the looked-up workout template (the
source dereferences the template with a non-null assertion; the model keeps
the possibly missing template as an `Option`). -/
def getUserWorkoutsByUserId (s : Store) (userId : Nat) :
    List (UserWorkout × Option Workout) :=
  ((mapValues s.userWorkouts).filter (fun uw => uw.userId == userId)).map
    (fun uw => (uw, getWorkout s uw.workoutId))

/-- Model of `MemStorage.getUserWorkoutWithDetails`: `undefined` when either the
assignment or its workout template is missing. -/
def getUserWorkoutWithDetails (s : Store) (id : Nat) :
    Option (UserWorkout × Workout) :=
  match getUserWorkout s id with
  | none => none
  | some userWorkout =>
    match getWorkout s userWorkout.workoutId with
    | none => none
    | some workout => some (userWorkout, workout)

/-- Model of `MemStorage.createUserWorkout`: allocate the next id, store the
assignment with `completed := false` and `completedAt := null`. -/
def createUserWorkout (s : Store) (userId workoutId : Nat) (scheduledFor : Date) :
    UserWorkout × Store :=
  let id := s.userWorkoutIdCounter
  let userWorkout : UserWorkout :=
    { id := id
      userId := userId
      workoutId := workoutId
      completed := false
      scheduledFor := scheduledFor
      completedAt := none }
  (userWorkout,
   { s with
     userWorkouts := mapSet s.userWorkouts id userWorkout
     userWorkoutIdCounter := id + 1 })

/-- Model of `MemStorage.completeUserWorkout` (storage.ts lines 246-257). -/
def completeUserWorkout (s : Store) (id : Nat) (now : Date) :
    Option UserWorkout × Store :=
  match getUserWorkout s id with
  | none => (none, s)
  | some userWorkout =>
    let completedUserWorkout : UserWorkout :=
      { userWorkout with completed := true, completedAt := some now }
    (some completedUserWorkout,
     { s with userWorkouts := mapSet s.userWorkouts id completedUserWorkout })

/-- Model of `Math.round(calories / 5)` (routes.ts line 374): JS `Math.round x` is
`⌊x + 1/2⌋`, and for the exact rational `calories / 5` this is
`⌊(2 * calories + 5) / 10⌋`, i.e. flooring integer division. -/
def xpGain (calories : Int) : Int :=
  (2 * calories + 5).fdiv 10

/-- Outcome of `POST /api/users/:userId/workouts` (routes.ts lines 289-342). -/
inductive ScheduleResult where
  /-- HTTP 404: unknown workout template. -/
  | workoutNotFound
  /-- HTTP 200: a same-day duplicate was detected; the payload is the result of
  `existingWorkouts.find(uw => uw.workoutId === workoutId)` (possibly
  `undefined`, hence the `Option`). -/
  | existing (payload : Option (UserWorkout × Option Workout))
  /-- HTTP 201: a fresh assignment was created. -/
  | created (userWorkout : UserWorkout)
deriving DecidableEq, Repr

/-- Model of `POST /api/users/:userId/workouts` (routes.ts lines 289-342): reject an
unknown workout; detect a duplicate among the user's assignments by
workout-id equality plus calendar-day equality of `scheduledFor`; on a
duplicate return (without creating anything) the first assignment whose
`workoutId` matches — the day is not re-checked on this lookup; otherwise
create a fresh assignment. -/
def scheduleWorkoutRoute (s : Store) (userId workoutId : Nat) (scheduledFor : Date) :
    ScheduleResult × Store :=
  match getWorkout s workoutId with
  | none => (.workoutNotFound, s)
  | some _ =>
    let existingWorkouts := getUserWorkoutsByUserId s userId
    let isDuplicate := existingWorkouts.any (fun uw =>
      uw.1.workoutId == workoutId && sameDay uw.1.scheduledFor scheduledFor)
    if isDuplicate then
      (.existing (existingWorkouts.find? (fun uw => uw.1.workoutId == workoutId)), s)
    else
      let (userWorkout, s2) := createUserWorkout s userId workoutId scheduledFor
      (.created userWorkout, s2)

/-- Outcome of `POST /api/user-workouts/:id/complete`. -/
inductive CompleteResult where
  /-- HTTP 404: assignment (or its workout template) not found. -/
  | notFound
  /-- HTTP 400: the assignment is already completed. -/
  | alreadyCompleted
  /-- HTTP 200: the completed assignment. -/
  | ok (userWorkout : UserWorkout)
deriving DecidableEq, Repr

/-- The pet-update step of the completion route (routes.ts lines 371-380):
if the user owns a pet, award it `round(calories / 5)` xp and the clamped
happiness and health gains; a missing pet is tolerated. -/
def completePetStep (s : Store) (userId : Nat) (calories : Int) : Store :=
  match getPetByUserId s userId with
  | none => s
  | some pet =>
    (updatePet s pet.id
      { xp := some (pet.xp + xpGain calories)
        happiness := some (min (pet.happiness + 10) 100)
        health := some (min (pet.health + 5) 100) }).2

/-- Model of `POST /api/user-workouts/:id/complete` (routes.ts lines 344-386):
look up the assignment with its workout template (404 on failure), reject
an already completed assignment (400), otherwise mark it completed, add the
workout's calories / duration / 1 to the user's stats (the result of that
update is ignored), and run the pet step. -/
def completeWorkoutRoute (s : Store) (id : Nat) (now : Date) :
    CompleteResult × Store :=
  match getUserWorkoutWithDetails s id with
  | none => (.notFound, s)
  | some (userWorkout, workout) =>
    if userWorkout.completed then
      (.alreadyCompleted, s)
    else
      let (completedUW, s1) := completeUserWorkout s id now
      let s2 := (updateUserStats s1 userWorkout.userId workout.calories workout.duration 1).2
      let s3 := completePetStep s2 userWorkout.userId workout.calories
      (match completedUW with
       | some uw => .ok uw
       | none => .notFound, s3)

/-- Model of `POST /api/pets/:id/feed` (routes.ts lines 155-177): hunger gains 20
capped at 100, `lastFed` is stamped. -/
def feedRoute (s : Store) (petId : Nat) (now : Date) : Option Pet × Store :=
  match getPet s petId with
  | none => (none, s)
  | some pet =>
    updatePet s petId
      { hunger := some (min (pet.hunger + 20) 100)
        lastFed := some now }

/-- Model of `POST /api/pets/:id/play` (routes.ts lines 179-202): happiness gains 15
capped at 100, hunger loses 5 floored at 0, `lastPlayed` is stamped. -/
def playRoute (s : Store) (petId : Nat) (now : Date) : Option Pet × Store :=
  match getPet s petId with
  | none => (none, s)
  | some pet =>
    updatePet s petId
      { happiness := some (min (pet.happiness + 15) 100)
        hunger := some (max (pet.hunger - 5) 0)
        lastPlayed := some now }

/-- Model of `POST /api/pets/:id/groom` (routes.ts lines 204-226): health gains 10
capped at 100, `lastGroomed` is stamped. -/
def groomRoute (s : Store) (petId : Nat) (now : Date) : Option Pet × Store :=
  match getPet s petId with
  | none => (none, s)
  | some pet =>
    updatePet s petId
      { health := some (min (pet.health + 10) 100)
        lastGroomed := some now }

/-- The zod schema of `PATCH /api/pets/:id` (routes.ts lines 126-136): the
bounded attributes must be supplied within [0,100], xp non-negative, level
positive; id, userId and name are not part of the schema, so a validated
update never carries them. -/
def validPatch (updates : PetUpdate) : Bool :=
  updates.id.isNone && updates.userId.isNone && updates.name.isNone &&
  (updates.health.all fun h => 0 ≤ h && h ≤ 100) &&
  (updates.hunger.all fun h => 0 ≤ h && h ≤ 100) &&
  (updates.happiness.all fun h => 0 ≤ h && h ≤ 100) &&
  (updates.xp.all fun x => 0 ≤ x) &&
  (updates.level.all fun l => 0 < l)

/-- Model of `PATCH /api/pets/:id` (routes.ts lines 119-152) after successful zod
validation: delegate to `MemStorage.updatePet`. -/
def patchPetRoute (s : Store) (petId : Nat) (updates : PetUpdate) : Option Pet × Store :=
  updatePet s petId updates

/-- The discrete moods of the classifier in `PetContext.tsx` (the keys of
`petMessages` that the status effect selects among). -/
inductive Mood where
  | hungry | unhappy | unhealthy | happy | default
deriving DecidableEq, Repr

/-- The mood classifier of `PetContext.tsx` lines 174-188: the if/else-if
chain over the pet's attributes, first match winning. -/
def petMood (pet : Pet) : Mood :=
  if pet.hunger < 30 then .hungry
  else if pet.happiness < 30 then .unhappy
  else if pet.health < 30 then .unhealthy
  else if pet.happiness > 80 && pet.health > 80 then .happy
  else .default

/-- The three bounded pet attributes all lie in [0,100]. -/
def petInBounds (pet : Pet) : Prop :=
  0 ≤ pet.health ∧ pet.health ≤ 100 ∧
  0 ≤ pet.hunger ∧ pet.hunger ≤ 100 ∧
  0 ≤ pet.happiness ∧ pet.happiness ≤ 100

instance (pet : Pet) : Decidable (petInBounds pet) := by
  unfold petInBounds; infer_instance

/-! ### Lemmas about the `JsMap` operations -/

theorem find?_map_replace {α : Type} (l : JsMap α) (k : Nat) (v : α) :
    (l.map (fun p => if p.1 == k then (k, v) else p)).find? (fun p => p.1 == k) =
      if l.any (fun p => p.1 == k) then some (k, v) else none := by
  induction l with
  | nil => rfl
  | cons p t ih =>
    simp only [List.map_cons, List.any_cons]
    by_cases hpk : p.1 = k
    · rw [if_pos (by simp [hpk])]
      rw [List.find?_cons_of_pos _ (by simp)]
      simp [hpk]
    · rw [if_neg (by simp [hpk])]
      rw [List.find?_cons_of_neg _ (by simp [hpk])]
      rw [ih]
      have hb : (p.1 == k) = false := by simp [hpk]
      simp only [hb, Bool.false_or]

theorem find?_map_replace_ne {α : Type} (l : JsMap α) (k k' : Nat) (v : α)
    (h : k' ≠ k) :
    (l.map (fun p => if p.1 == k then (k, v) else p)).find? (fun p => p.1 == k') =
      l.find? (fun p => p.1 == k') := by
  induction l with
  | nil => rfl
  | cons p t ih =>
    simp only [List.map_cons]
    by_cases hpk : p.1 = k
    · rw [if_pos (by simp [hpk])]
      have hne : k ≠ k' := fun e => h e.symm
      have hne2 : p.1 ≠ k' := by rw [hpk]; exact hne
      rw [List.find?_cons_of_neg _ (by simp [hne])]
      rw [List.find?_cons_of_neg _ (by simp [hne2])]
      exact ih
    · rw [if_neg (by simp [hpk])]
      by_cases hpk' : p.1 = k'
      · rw [List.find?_cons_of_pos _ (by simp [hpk']),
          List.find?_cons_of_pos _ (by simp [hpk'])]
      · rw [List.find?_cons_of_neg _ (by simp [hpk']),
          List.find?_cons_of_neg _ (by simp [hpk'])]
        exact ih

theorem mapGet_mapSet_self {α : Type} (l : JsMap α) (k : Nat) (v : α) :
    mapGet (mapSet l k v) k = some v := by
  unfold mapSet mapGet
  by_cases hany : (l.any fun p => p.1 == k) = true
  · rw [if_pos hany, find?_map_replace, if_pos hany]
    rfl
  · rw [if_neg hany, List.find?_append]
    have hnone : l.find? (fun p => p.1 == k) = none := by
      rw [List.find?_eq_none]
      intro a ha hp
      exact hany (List.any_eq_true.mpr ⟨a, ha, hp⟩)
    rw [hnone]
    have hone : List.find? (fun p => p.1 == k) [(k, v)] = some (k, v) := by
      rw [List.find?_cons_of_pos _ (by simp)]
    rw [hone]
    rfl

theorem mapGet_mapSet_ne {α : Type} (l : JsMap α) (k k' : Nat) (v : α)
    (h : k' ≠ k) : mapGet (mapSet l k v) k' = mapGet l k' := by
  unfold mapSet mapGet
  by_cases hany : (l.any fun p => p.1 == k) = true
  · rw [if_pos hany, find?_map_replace_ne l k k' v h]
  · rw [if_neg hany, List.find?_append]
    have hne : k ≠ k' := fun e => h e.symm
    have h1 : List.find? (fun p => p.1 == k') [(k, v)] = none := by
      rw [List.find?_cons_of_neg _ (by simp [hne])]
      rfl
    rw [h1]
    cases l.find? fun p => p.1 == k' <;> rfl

theorem mem_values_mapSet {α : Type} {l : JsMap α} {k : Nat} {v w : α}
    (h : w ∈ mapValues (mapSet l k v)) : w ∈ mapValues l ∨ w = v := by
  unfold mapSet at h
  by_cases hany : (l.any fun p => p.1 == k) = true
  · rw [if_pos hany] at h
    unfold mapValues at h ⊢
    rw [List.map_map, List.mem_map] at h
    obtain ⟨p, hp, hw⟩ := h
    by_cases hpk : p.1 = k
    · right
      rw [← hw]
      simp [Function.comp, hpk]
    · left
      rw [List.mem_map]
      refine ⟨p, hp, ?_⟩
      rw [← hw]
      simp [Function.comp, hpk]
  · rw [if_neg hany] at h
    unfold mapValues at h ⊢
    rw [List.map_append] at h
    rcases List.mem_append.mp h with h1 | h1
    · exact Or.inl h1
    · simp at h1
      exact Or.inr h1

theorem mapGet_mem_values {α : Type} {l : JsMap α} {k : Nat} {v : α}
    (h : mapGet l k = some v) : v ∈ mapValues l := by
  unfold mapGet at h
  cases hf : l.find? (fun p => p.1 == k) with
  | none => rw [hf] at h; simp at h
  | some p =>
    rw [hf] at h
    simp at h
    have := List.mem_of_find?_eq_some hf
    unfold mapValues
    rw [List.mem_map]
    exact ⟨p, this, h⟩

theorem getPetByUserId_mem {s : Store} {userId : Nat} {pet : Pet}
    (h : getPetByUserId s userId = some pet) : pet ∈ mapValues s.pets :=
  List.mem_of_find?_eq_some h

/-- The stats update touches only the `users` map. -/
theorem updateUserStats_frame (s : Store) (id : Nat) (a b c : Int) :
    (updateUserStats s id a b c).2.pets = s.pets ∧
    (updateUserStats s id a b c).2.userWorkouts = s.userWorkouts ∧
    (updateUserStats s id a b c).2.workouts = s.workouts := by
  unfold updateUserStats
  cases getUser s id <;> simp

/-- Lookup `getPetByUserId` depends only on the `pets` map. -/
theorem getPetByUserId_congr {s1 s2 : Store} (h : s1.pets = s2.pets) (userId : Nat) :
    getPetByUserId s1 userId = getPetByUserId s2 userId := by
  unfold getPetByUserId
  rw [h]

theorem option_all_mem {α : Type} {o : Option α} {f : α → Bool}
    (h : o.all f = true) : ∀ x ∈ o, f x = true := by
  cases o <;> simp_all [Option.all]

/-! ### Concrete fixtures used by witnesses and counterexamples -/

/-- The Morning Cardio sample workout seeded by `initializeWorkouts`
(calories 120, duration 20). -/
def morningCardio : Workout :=
  { id := 2, name := "Morning Cardio",
    description := "Energizing cardio to start your day",
    duration := 20, calories := 120, difficulty := "Moderate", type := "Cardio" }

def dayA : Date := { year := 2024, month := 4, day := 10, timeOfDay := 8 }

def dayB : Date := { year := 2024, month := 4, day := 11, timeOfDay := 9 }

/-- Same calendar day as `dayB`, different time of day. -/
def dayBLater : Date := { year := 2024, month := 4, day := 11, timeOfDay := 20 }

def buddy : Pet :=
  { id := 1, userId := 1, name := "Buddy", type := .cat, health := 50, hunger := 90,
    happiness := 60, level := 1, xp := 0,
    lastFed := dayA, lastPlayed := dayA, lastGroomed := dayA }

def freshUser : User :=
  { id := 1, username := "user", password := "password", streak := 0,
    caloriesBurned := 0, activeMinutes := 0, completedWorkouts := 0, createdAt := dayA }

def doneAssignment : UserWorkout :=
  { id := 1, userId := 1, workoutId := 2, completed := true,
    scheduledFor := dayA, completedAt := some dayA }

def openAssignment : UserWorkout :=
  { id := 1, userId := 1, workoutId := 2, completed := false,
    scheduledFor := dayA, completedAt := none }

/-- A store holding one user, their pet, one workout template and one
already-completed assignment. -/
def baseStore : Store :=
  { users := [(1, freshUser)], pets := [(1, buddy)], workouts := [(2, morningCardio)],
    userWorkouts := [(1, doneAssignment)],
    userIdCounter := 2, petIdCounter := 2, workoutIdCounter := 3, userWorkoutIdCounter := 2 }

/-- Like `baseStore` but the assignment is still open. -/
def petStore : Store :=
  { users := [(1, freshUser)], pets := [(1, buddy)], workouts := [(2, morningCardio)],
    userWorkouts := [(1, openAssignment)],
    userIdCounter := 2, petIdCounter := 2, workoutIdCounter := 3, userWorkoutIdCounter := 2 }

/-- Open assignment, but the user owns no pet. -/
def noPetStore : Store :=
  { users := [(1, freshUser)], pets := [], workouts := [(2, morningCardio)],
    userWorkouts := [(1, openAssignment)],
    userIdCounter := 2, petIdCounter := 1, workoutIdCounter := 3, userWorkoutIdCounter := 2 }

/-! ### Theorems for the claims -/

/-- C8: the mood classifier maps a pet's attributes to a mood by precedence,
first match winning: hunger < 30 gives hungry; else happiness < 30 gives
unhappy; else health < 30 gives unhealthy; else happiness > 80 and
health > 80 gives happy; otherwise the default mood. -/
theorem petMood_precedence (pet : Pet) :
    (pet.hunger < 30 → petMood pet = .hungry) ∧
    (¬ pet.hunger < 30 → pet.happiness < 30 → petMood pet = .unhappy) ∧
    (¬ pet.hunger < 30 → ¬ pet.happiness < 30 → pet.health < 30 →
      petMood pet = .unhealthy) ∧
    (¬ pet.hunger < 30 → ¬ pet.happiness < 30 → ¬ pet.health < 30 →
      80 < pet.happiness → 80 < pet.health → petMood pet = .happy) ∧
    (¬ pet.hunger < 30 → ¬ pet.happiness < 30 → ¬ pet.health < 30 →
      ¬ (80 < pet.happiness ∧ 80 < pet.health) → petMood pet = .default) := by
  unfold petMood
  refine ⟨?_, ?_, ?_, ?_, ?_⟩
  · intro h1
    rw [if_pos h1]
  · intro h1 h2
    rw [if_neg h1, if_pos h2]
  · intro h1 h2 h3
    rw [if_neg h1, if_neg h2, if_pos h3]
  · intro h1 h2 h3 h4 h5
    rw [if_neg h1, if_neg h2, if_neg h3, if_pos (by simp [h4, h5])]
  · intro h1 h2 h3 h4
    rw [if_neg h1, if_neg h2, if_neg h3, if_neg (by simpa using h4)]

/-- Witness for C8: a pet with hunger 20, happiness 90, health 90 is
classified hungry (hunger takes precedence over the happy thresholds). -/
theorem petMood_precedence_witness :
    ({ buddy with hunger := 20, happiness := 90, health := 90 } : Pet).hunger < 30 ∧
    petMood { buddy with hunger := 20, happiness := 90, health := 90 } = .hungry :=
  ⟨by decide,
   (petMood_precedence { buddy with hunger := 20, happiness := 90, health := 90 }).1
     (by decide)⟩

/-- C1: completing an assignment whose completed flag is already true is
rejected as the AlreadyCompleted client error (HTTP 400) and the whole
store is returned unchanged, so the user counters, the pet attributes and
the assignment record are all identical before and after the call — stats
and xp are awarded at most once per assignment. -/
theorem complete_rejects_already_completed (s : Store) (id : Nat) (now : Date)
    (uw : UserWorkout) (w : Workout)
    (huw : getUserWorkout s id = some uw)
    (hw : getWorkout s uw.workoutId = some w)
    (hc : uw.completed = true) :
    completeWorkoutRoute s id now = (.alreadyCompleted, s) := by
  simp [completeWorkoutRoute, getUserWorkoutWithDetails, huw, hw, hc]

/-- Witness for C1: re-completing the already-completed assignment of
`baseStore` is rejected and leaves the store untouched. -/
theorem complete_rejects_already_completed_witness :
    getUserWorkout baseStore 1 = some doneAssignment ∧
    getWorkout baseStore doneAssignment.workoutId = some morningCardio ∧
    doneAssignment.completed = true ∧
    completeWorkoutRoute baseStore 1 dayB = (.alreadyCompleted, baseStore) :=
  ⟨by decide, by decide, by decide,
   complete_rejects_already_completed baseStore 1 dayB doneAssignment morningCardio
     (by decide) (by decide) (by decide)⟩

/-- C3: `updateUserStats` adds each non-negative delta to the corresponding
cumulative counter of an existing user, changing no other user field, and
fails with NotFound (returning `none` and changing nothing) when the user
does not exist. -/
theorem updateUserStats_adds_deltas (s : Store) (id : Nat) (cb am cw : Int)
    (hcb : 0 ≤ cb) (ham : 0 ≤ am) (hcw : 0 ≤ cw) :
    (∀ u, getUser s id = some u →
      ∃ u', updateUserStats s id cb am cw =
          (some u', { s with users := mapSet s.users id u' }) ∧
        u'.caloriesBurned = u.caloriesBurned + cb ∧
        u'.activeMinutes = u.activeMinutes + am ∧
        u'.completedWorkouts = u.completedWorkouts + cw ∧
        u'.id = u.id ∧ u'.username = u.username ∧ u'.password = u.password ∧
        u'.streak = u.streak ∧ u'.createdAt = u.createdAt) ∧
    (getUser s id = none → updateUserStats s id cb am cw = (none, s)) := by
  constructor
  · intro u hu
    refine ⟨{ u with
        caloriesBurned := u.caloriesBurned + cb
        activeMinutes := u.activeMinutes + am
        completedWorkouts := u.completedWorkouts + cw },
      ?_, rfl, rfl, rfl, rfl, rfl, rfl, rfl, rfl⟩
    simp [updateUserStats, hu]
  · intro hu
    simp [updateUserStats, hu]

/-- Witness for C3: applied once to the fresh user of `noPetStore`, and
twice in sequence yields counters (100, 20, 2) as the spec's example
requires. -/
theorem updateUserStats_adds_deltas_witness :
    ((0:Int) ≤ 50 ∧ (0:Int) ≤ 10 ∧ (0:Int) ≤ 1) ∧
    ((∀ u, getUser noPetStore 1 = some u →
      ∃ u', updateUserStats noPetStore 1 50 10 1 =
          (some u', { noPetStore with users := mapSet noPetStore.users 1 u' }) ∧
        u'.caloriesBurned = u.caloriesBurned + 50 ∧
        u'.activeMinutes = u.activeMinutes + 10 ∧
        u'.completedWorkouts = u.completedWorkouts + 1 ∧
        u'.id = u.id ∧ u'.username = u.username ∧ u'.password = u.password ∧
        u'.streak = u.streak ∧ u'.createdAt = u.createdAt) ∧
     (getUser noPetStore 1 = none → updateUserStats noPetStore 1 50 10 1 = (none, noPetStore))) ∧
    ((updateUserStats (updateUserStats noPetStore 1 50 10 1).2 1 50 10 1).1.map
      (fun u => (u.caloriesBurned, u.activeMinutes, u.completedWorkouts)) = some (100, 20, 2)) :=
  ⟨⟨by decide, by decide, by decide⟩,
   updateUserStats_adds_deltas noPetStore 1 50 10 1 (by decide) (by decide) (by decide),
   by decide⟩

/-- An arbitrary supplied value below 0: `updatePet` does not clamp it. -/
def negUpdate : PetUpdate := { health := some (-5) }

/-- Counterexample to C4: the pet of `petStore` has all attributes inside
[0,100], yet patching it with `health := -5` returns a pet whose health is
-5, outside [0,100] — the lower bound 0 is not re-applied by `updatePet`. -/
theorem updatePet_lower_bound_violated :
    petInBounds buddy ∧
    getPet petStore 1 = some buddy ∧
    (updatePet petStore 1 negUpdate).1.map Pet.health = some (-5) ∧
    ¬ (0:Int) ≤ -5 :=
  ⟨by decide, by decide, by decide, by decide⟩

/-- The one-sided clamp of `updatePet`: the result is at most 100
unconditionally, and at least 0 only when both the old value and the
supplied value (if any) are non-negative. -/
theorem clamp_bounds (old : Int) (sup : Option Int) :
    (if sup.getD old > 100 then 100 else sup.getD old) ≤ 100 ∧
    (0 ≤ old → (∀ h ∈ sup, 0 ≤ h) →
      0 ≤ (if sup.getD old > 100 then 100 else sup.getD old)) := by
  constructor
  · split <;> omega
  · intro h0 hs
    cases hh : sup with
    | none => simp only [hh, Option.getD_none]; split <;> omega
    | some x =>
      have hx : 0 ≤ x := hs x (by rw [hh]; rfl)
      simp only [hh, Option.getD_some]
      split <;> omega

theorem applyPetUpdate_health (pet : Pet) (u : PetUpdate) :
    (applyPetUpdate pet u).health =
      if u.health.getD pet.health > 100 then 100 else u.health.getD pet.health := rfl

theorem applyPetUpdate_hunger (pet : Pet) (u : PetUpdate) :
    (applyPetUpdate pet u).hunger =
      if u.hunger.getD pet.hunger > 100 then 100 else u.hunger.getD pet.hunger := rfl

theorem applyPetUpdate_happiness (pet : Pet) (u : PetUpdate) :
    (applyPetUpdate pet u).happiness =
      if u.happiness.getD pet.happiness > 100 then 100
      else u.happiness.getD pet.happiness := rfl

/-- C4 (amended): for every existing pet and every partial update with
arbitrary supplied values, `updatePet` re-applies only the upper clamp:
health, hunger and happiness of the returned pet are each at most 100
regardless of which fields were supplied, while the lower bound 0 holds
only when the old value and any supplied value are themselves
non-negative. -/
theorem updatePet_clamps_upper (s : Store) (id : Nat) (u : PetUpdate) (pet : Pet)
    (hp : getPet s id = some pet) :
    ∃ p', (updatePet s id u).1 = some p' ∧
      p'.health ≤ 100 ∧ p'.hunger ≤ 100 ∧ p'.happiness ≤ 100 ∧
      (0 ≤ pet.health → (∀ h ∈ u.health, 0 ≤ h) → 0 ≤ p'.health) ∧
      (0 ≤ pet.hunger → (∀ h ∈ u.hunger, 0 ≤ h) → 0 ≤ p'.hunger) ∧
      (0 ≤ pet.happiness → (∀ h ∈ u.happiness, 0 ≤ h) → 0 ≤ p'.happiness) := by
  refine ⟨applyPetUpdate pet u, by simp [updatePet, hp], ?_, ?_, ?_, ?_, ?_, ?_⟩
  · rw [applyPetUpdate_health]; exact (clamp_bounds pet.health u.health).1
  · rw [applyPetUpdate_hunger]; exact (clamp_bounds pet.hunger u.hunger).1
  · rw [applyPetUpdate_happiness]; exact (clamp_bounds pet.happiness u.happiness).1
  · rw [applyPetUpdate_health]; exact (clamp_bounds pet.health u.health).2
  · rw [applyPetUpdate_hunger]; exact (clamp_bounds pet.hunger u.hunger).2
  · rw [applyPetUpdate_happiness]; exact (clamp_bounds pet.happiness u.happiness).2

/-- Witness for the amended C4, at the pet of `petStore` and an update
supplying health 150 (clamped to 100 in the result). -/
theorem updatePet_clamps_upper_witness :
    getPet petStore 1 = some buddy ∧
    (∃ p', (updatePet petStore 1 { health := some 150 }).1 = some p' ∧
      p'.health ≤ 100 ∧ p'.hunger ≤ 100 ∧ p'.happiness ≤ 100 ∧
      (0 ≤ buddy.health → (∀ h ∈ ({ health := some 150 } : PetUpdate).health, 0 ≤ h) → 0 ≤ p'.health) ∧
      (0 ≤ buddy.hunger → (∀ h ∈ ({ health := some 150 } : PetUpdate).hunger, 0 ≤ h) → 0 ≤ p'.hunger) ∧
      (0 ≤ buddy.happiness → (∀ h ∈ ({ health := some 150 } : PetUpdate).happiness, 0 ≤ h) → 0 ≤ p'.happiness)) :=
  ⟨by decide, updatePet_clamps_upper petStore 1 { health := some 150 } buddy (by decide)⟩

/-- C10: for every existing pet (whose bounded attributes respect the
stored-pet invariant of being at most 100) and every partial update,
each pet field not supplied in the update keeps exactly its previous value
in the returned pet. -/
theorem updatePet_frame (s : Store) (id : Nat) (u : PetUpdate) (pet : Pet)
    (hp : getPet s id = some pet)
    (hh : pet.health ≤ 100) (hg : pet.hunger ≤ 100) (hpp : pet.happiness ≤ 100) :
    ∃ p', (updatePet s id u).1 = some p' ∧
      (u.id = none → p'.id = pet.id) ∧
      (u.userId = none → p'.userId = pet.userId) ∧
      (u.name = none → p'.name = pet.name) ∧
      (u.type = none → p'.type = pet.type) ∧
      (u.health = none → p'.health = pet.health) ∧
      (u.hunger = none → p'.hunger = pet.hunger) ∧
      (u.happiness = none → p'.happiness = pet.happiness) ∧
      (u.level = none → p'.level = pet.level) ∧
      (u.xp = none → p'.xp = pet.xp) ∧
      (u.lastFed = none → p'.lastFed = pet.lastFed) ∧
      (u.lastPlayed = none → p'.lastPlayed = pet.lastPlayed) ∧
      (u.lastGroomed = none → p'.lastGroomed = pet.lastGroomed) := by
  refine ⟨applyPetUpdate pet u, by simp [updatePet, hp],
    ?_, ?_, ?_, ?_, ?_, ?_, ?_, ?_, ?_, ?_, ?_, ?_⟩
  · intro h; simp [applyPetUpdate, h]
  · intro h; simp [applyPetUpdate, h]
  · intro h; simp [applyPetUpdate, h]
  · intro h; simp [applyPetUpdate, h]
  · intro h
    rw [applyPetUpdate_health, h]
    simp only [Option.getD_none]
    split <;> omega
  · intro h
    rw [applyPetUpdate_hunger, h]
    simp only [Option.getD_none]
    split <;> omega
  · intro h
    rw [applyPetUpdate_happiness, h]
    simp only [Option.getD_none]
    split <;> omega
  · intro h; simp [applyPetUpdate, h]
  · intro h; simp [applyPetUpdate, h]
  · intro h; simp [applyPetUpdate, h]
  · intro h; simp [applyPetUpdate, h]
  · intro h; simp [applyPetUpdate, h]

/-- Lookup `getPet` depends only on the `pets` map. -/
theorem getPet_congr {s1 s2 : Store} (h : s1.pets = s2.pets) (id : Nat) :
    getPet s1 id = getPet s2 id := by
  unfold getPet mapGet
  rw [h]

/-- Reduced form of the completion route on an open assignment whose
workout template exists: mark the assignment completed, then run the stats
update and the pet step on the updated store. -/
theorem completeWorkoutRoute_eq (s : Store) (id : Nat) (now : Date)
    (uw : UserWorkout) (w : Workout)
    (huw : getUserWorkout s id = some uw)
    (hw : getWorkout s uw.workoutId = some w)
    (hnc : uw.completed = false) :
    completeWorkoutRoute s id now =
      (.ok { uw with completed := true, completedAt := some now },
       completePetStep
         (updateUserStats
           { s with userWorkouts :=
               mapSet s.userWorkouts id { uw with completed := true, completedAt := some now } }
           uw.userId w.calories w.duration 1).2
         uw.userId w.calories) := by
  simp [completeWorkoutRoute, getUserWorkoutWithDetails, huw, hw, hnc, completeUserWorkout]

/-- When the user owns no pet the pet step is the identity. -/
theorem completePetStep_none (s : Store) (uid : Nat) (cal : Int)
    (h : getPetByUserId s uid = none) : completePetStep s uid cal = s := by
  simp [completePetStep, h]

/-- Witness for C10 at the pet of `petStore` and an update supplying only
hunger. -/
theorem updatePet_frame_witness :
    getPet petStore 1 = some buddy ∧ buddy.health ≤ 100 ∧
    (∃ p', (updatePet petStore 1 { hunger := some 80 }).1 = some p' ∧
      (({ hunger := some 80 } : PetUpdate).id = none → p'.id = buddy.id) ∧
      (({ hunger := some 80 } : PetUpdate).userId = none → p'.userId = buddy.userId) ∧
      (({ hunger := some 80 } : PetUpdate).name = none → p'.name = buddy.name) ∧
      (({ hunger := some 80 } : PetUpdate).type = none → p'.type = buddy.type) ∧
      (({ hunger := some 80 } : PetUpdate).health = none → p'.health = buddy.health) ∧
      (({ hunger := some 80 } : PetUpdate).hunger = none → p'.hunger = buddy.hunger) ∧
      (({ hunger := some 80 } : PetUpdate).happiness = none → p'.happiness = buddy.happiness) ∧
      (({ hunger := some 80 } : PetUpdate).level = none → p'.level = buddy.level) ∧
      (({ hunger := some 80 } : PetUpdate).xp = none → p'.xp = buddy.xp) ∧
      (({ hunger := some 80 } : PetUpdate).lastFed = none → p'.lastFed = buddy.lastFed) ∧
      (({ hunger := some 80 } : PetUpdate).lastPlayed = none → p'.lastPlayed = buddy.lastPlayed) ∧
      (({ hunger := some 80 } : PetUpdate).lastGroomed = none → p'.lastGroomed = buddy.lastGroomed)) :=
  ⟨by decide, by decide,
   updatePet_frame petStore 1 { hunger := some 80 } buddy
     (by decide) (by decide) (by decide) (by decide)⟩

/-- C6: the three care actions on an existing pet (with the stored-pet
invariant that the bounded attributes are at most 100) do exactly what
routes.ts says and nothing else: feed sets hunger to min(hunger+20, 100)
and stamps lastFed; play sets happiness to min(happiness+15, 100), hunger
to max(hunger-5, 0) and stamps lastPlayed; groom sets health to
min(health+10, 100) and stamps lastGroomed; no care action changes xp or
level or any other field. -/
theorem care_actions_spec (s : Store) (petId : Nat) (now : Date) (pet : Pet)
    (hp : getPet s petId = some pet)
    (hh : pet.health ≤ 100) (hg : pet.hunger ≤ 100) (hpp : pet.happiness ≤ 100) :
    (feedRoute s petId now).1 =
      some { pet with hunger := min (pet.hunger + 20) 100, lastFed := now } ∧
    (playRoute s petId now).1 =
      some { pet with happiness := min (pet.happiness + 15) 100,
                      hunger := max (pet.hunger - 5) 0, lastPlayed := now } ∧
    (groomRoute s petId now).1 =
      some { pet with health := min (pet.health + 10) 100, lastGroomed := now } := by
  obtain ⟨pid, puid, pname, pty, phe, phu, pha, plv, pxp, pf, ppl, pgr⟩ := pet
  simp only at hh hg hpp
  refine ⟨?_, ?_, ?_⟩
  · simp only [feedRoute, hp, updatePet, applyPetUpdate, Option.getD_some, Option.getD_none,
      Option.some.injEq, Pet.mk.injEq]
    refine ⟨?_, ?_, ?_, ?_, ?_, ?_, ?_, ?_, ?_, ?_, ?_, ?_⟩ <;>
      first | trivial | (split_ifs <;> omega)
  · simp only [playRoute, hp, updatePet, applyPetUpdate, Option.getD_some, Option.getD_none,
      Option.some.injEq, Pet.mk.injEq]
    refine ⟨?_, ?_, ?_, ?_, ?_, ?_, ?_, ?_, ?_, ?_, ?_, ?_⟩ <;>
      first | trivial | (split_ifs <;> omega)
  · simp only [groomRoute, hp, updatePet, applyPetUpdate, Option.getD_some, Option.getD_none,
      Option.some.injEq, Pet.mk.injEq]
    refine ⟨?_, ?_, ?_, ?_, ?_, ?_, ?_, ?_, ?_, ?_, ?_, ?_⟩ <;>
      first | trivial | (split_ifs <;> omega)

/-- Witness for C6 at the pet of `petStore` (hunger 90), including the
spec's example: feeding twice yields hunger 100 both times, not 110 then
130. -/
theorem care_actions_spec_witness :
    getPet petStore 1 = some buddy ∧
    ((feedRoute petStore 1 dayB).1 =
       some { buddy with hunger := min (buddy.hunger + 20) 100, lastFed := dayB } ∧
     (playRoute petStore 1 dayB).1 =
       some { buddy with happiness := min (buddy.happiness + 15) 100,
                         hunger := max (buddy.hunger - 5) 0, lastPlayed := dayB } ∧
     (groomRoute petStore 1 dayB).1 =
       some { buddy with health := min (buddy.health + 10) 100, lastGroomed := dayB }) ∧
    ((feedRoute petStore 1 dayB).1.map Pet.hunger = some 100 ∧
     (feedRoute (feedRoute petStore 1 dayB).2 1 dayBLater).1.map Pet.hunger = some 100) :=
  ⟨by decide,
   care_actions_spec petStore 1 dayB buddy (by decide) (by decide) (by decide) (by decide),
   by decide, by decide⟩

/-- Characterization of the pet step when the user owns a pet that is
stored under its own id and has hunger within bounds. -/
theorem completePetStep_updates (s : Store) (uid : Nat) (cal : Int) (pet : Pet)
    (hpet : getPetByUserId s uid = some pet)
    (hpid : getPet s pet.id = some pet)
    (hg : pet.hunger ≤ 100) :
    getPet (completePetStep s uid cal) pet.id =
      some { pet with
        happiness := min (pet.happiness + 10) 100
        health := min (pet.health + 5) 100
        xp := pet.xp + xpGain cal } := by
  simp only [completePetStep, hpet, updatePet, hpid]
  unfold getPet
  obtain ⟨pid, puid, pname, pty, phe, phu, pha, plv, pxp, pf, ppl, pgr⟩ := pet
  simp only at hg ⊢
  rw [mapGet_mapSet_self]
  simp only [applyPetUpdate, Option.getD_some, Option.getD_none, Option.some.injEq,
    Pet.mk.injEq]
  refine ⟨?_, ?_, ?_, ?_, ?_, ?_, ?_, ?_, ?_, ?_, ?_, ?_⟩ <;>
    first | trivial | (split_ifs <;> omega)

/-- C7: completing an open assignment whose owner has a pet (stored under
its own id, hunger within bounds) updates the pet exactly as specified:
happiness becomes min(happiness+10, 100), health becomes min(health+5, 100),
xp grows by round(calories/5) of the workout template, and hunger together
with the three last-care timestamps is untouched. -/
theorem complete_updates_pet (s : Store) (id : Nat) (now : Date)
    (uw : UserWorkout) (w : Workout) (pet : Pet)
    (huw : getUserWorkout s id = some uw)
    (hw : getWorkout s uw.workoutId = some w)
    (hnc : uw.completed = false)
    (hpet : getPetByUserId s uw.userId = some pet)
    (hpid : getPet s pet.id = some pet)
    (hg : pet.hunger ≤ 100) :
    getPet (completeWorkoutRoute s id now).2 pet.id =
      some { pet with
        happiness := min (pet.happiness + 10) 100
        health := min (pet.health + 5) 100
        xp := pet.xp + xpGain w.calories } := by
  rw [completeWorkoutRoute_eq s id now uw w huw hw hnc]
  apply completePetStep_updates
  · rw [getPetByUserId_congr (updateUserStats_frame _ _ _ _ _).1]
    exact hpet
  · rw [getPet_congr (updateUserStats_frame _ _ _ _ _).1]
    exact hpid
  · exact hg

/-- Witness for C7: completing the open assignment of `petStore` gives its
pet happiness min(60+10,100)=70, health min(50+5,100)=55 and xp
0 + round(120/5) = 24. -/
theorem complete_updates_pet_witness :
    getUserWorkout petStore 1 = some openAssignment ∧
    getPetByUserId petStore openAssignment.userId = some buddy ∧
    (getPet (completeWorkoutRoute petStore 1 dayB).2 buddy.id =
      some { buddy with
        happiness := min (buddy.happiness + 10) 100
        health := min (buddy.health + 5) 100
        xp := buddy.xp + xpGain morningCardio.calories }) ∧
    xpGain morningCardio.calories = 24 :=
  ⟨by decide, by decide,
   complete_updates_pet petStore 1 dayB openAssignment morningCardio buddy
     (by decide) (by decide) (by decide) (by decide) (by decide) (by decide),
   by decide⟩

/-- Running the stats update followed by the pet step for a user who exists
but owns no pet: the stats are added and nothing else changes. -/
theorem statsThenPet_no_pet (sA : Store) (uid : Nat) (cal dur : Int) (user : User)
    (hu : getUser sA uid = some user)
    (hnopet : getPetByUserId sA uid = none) :
    completePetStep (updateUserStats sA uid cal dur 1).2 uid cal =
      { sA with
        users :=
          mapSet sA.users uid
            { user with
              caloriesBurned := user.caloriesBurned + cal
              activeMinutes := user.activeMinutes + dur
              completedWorkouts := user.completedWorkouts + 1 } } := by
  simp only [updateUserStats, hu]
  exact completePetStep_none _ uid cal hnopet

/-- C9: completing an unknown assignment id returns NotFound with the store
untouched; completing an existing open assignment whose owner exists but
has no pet still succeeds: the assignment is marked completed, the user
stats are updated, and the pets map is untouched. -/
theorem complete_missing_cases (s : Store) (id : Nat) (now : Date) :
    (getUserWorkout s id = none → completeWorkoutRoute s id now = (.notFound, s)) ∧
    (∀ uw w user,
      getUserWorkout s id = some uw → getWorkout s uw.workoutId = some w →
      uw.completed = false → getUser s uw.userId = some user →
      getPetByUserId s uw.userId = none →
      ∃ uw' user', uw' = { uw with completed := true, completedAt := some now } ∧
        user'.caloriesBurned = user.caloriesBurned + w.calories ∧
        user'.activeMinutes = user.activeMinutes + w.duration ∧
        user'.completedWorkouts = user.completedWorkouts + 1 ∧
        completeWorkoutRoute s id now =
          (.ok uw', { s with
            users := mapSet s.users uw.userId user'
            userWorkouts := mapSet s.userWorkouts id uw' }) ∧
        (completeWorkoutRoute s id now).2.pets = s.pets) := by
  constructor
  · intro h
    simp [completeWorkoutRoute, getUserWorkoutWithDetails, h]
  · intro uw w user huw hw hnc hu hnopet
    refine ⟨{ uw with completed := true, completedAt := some now },
      { user with
        caloriesBurned := user.caloriesBurned + w.calories
        activeMinutes := user.activeMinutes + w.duration
        completedWorkouts := user.completedWorkouts + 1 },
      rfl, rfl, rfl, rfl, ?_, ?_⟩
    all_goals
      rw [completeWorkoutRoute_eq s id now uw w huw hw hnc]
      have hu2 : getUser
          ({ s with
             userWorkouts :=
               mapSet s.userWorkouts id
                 { uw with completed := true, completedAt := some now } }) uw.userId =
          some user := hu
      have hnopet2 : getPetByUserId
          ({ s with
             userWorkouts :=
               mapSet s.userWorkouts id
                 { uw with completed := true, completedAt := some now } }) uw.userId =
          none := hnopet
      rw [statsThenPet_no_pet _ uw.userId w.calories w.duration user hu2 hnopet2]

/-- Witness for C9: an unknown id (99) on `noPetStore` is a NotFound no-op,
and completing its open assignment (id 1) succeeds with the user stats
updated even though the user has no pet. -/
theorem complete_missing_cases_witness :
    completeWorkoutRoute noPetStore 99 dayB = (.notFound, noPetStore) ∧
    (∃ uw' user',
      uw' = { openAssignment with completed := true, completedAt := some dayB } ∧
      user'.caloriesBurned = freshUser.caloriesBurned + morningCardio.calories ∧
      user'.activeMinutes = freshUser.activeMinutes + morningCardio.duration ∧
      user'.completedWorkouts = freshUser.completedWorkouts + 1 ∧
      completeWorkoutRoute noPetStore 1 dayB =
        (.ok uw', { noPetStore with
          users := mapSet noPetStore.users openAssignment.userId user'
          userWorkouts := mapSet noPetStore.userWorkouts 1 uw' }) ∧
      (completeWorkoutRoute noPetStore 1 dayB).2.pets = noPetStore.pets) :=
  ⟨(complete_missing_cases noPetStore 99 dayB).1 (by decide),
   (complete_missing_cases noPetStore 1 dayB).2 openAssignment morningCardio freshUser
     (by decide) (by decide) (by decide) (by decide) (by decide)⟩

theorem mem_some_le {x h : Int} (hx : 0 ≤ x) (hm : h ∈ (some x : Option Int)) : 0 ≤ h := by
  rw [Option.mem_def] at hm
  injection hm with e
  subst e
  exact hx

theorem not_mem_none {h : Int} (hm : h ∈ (none : Option Int)) : 0 ≤ h := by
  simp at hm

/-- Update `updatePet` keeps every stored pet inside [0,100] provided the supplied
bounded attributes (if any) are non-negative. -/
theorem updatePet_preserves_bounds (s : Store) (id : Nat) (u : PetUpdate)
    (hs : ∀ p ∈ mapValues s.pets, petInBounds p)
    (uh : ∀ h ∈ u.health, (0:Int) ≤ h)
    (ug : ∀ h ∈ u.hunger, (0:Int) ≤ h)
    (up : ∀ h ∈ u.happiness, (0:Int) ≤ h) :
    ∀ p ∈ mapValues (updatePet s id u).2.pets, petInBounds p := by
  intro p hp
  unfold updatePet at hp
  cases hpet : getPet s id with
  | none =>
    rw [hpet] at hp
    exact hs p hp
  | some pet =>
    rw [hpet] at hp
    dsimp only at hp
    rcases mem_values_mapSet hp with h1 | h1
    · exact hs p h1
    · subst h1
      obtain ⟨b1, b2, b3, b4, b5, b6⟩ := hs pet (mapGet_mem_values hpet)
      refine ⟨?_, ?_, ?_, ?_, ?_, ?_⟩
      · rw [applyPetUpdate_health]
        exact (clamp_bounds pet.health u.health).2 b1 uh
      · rw [applyPetUpdate_health]
        exact (clamp_bounds pet.health u.health).1
      · rw [applyPetUpdate_hunger]
        exact (clamp_bounds pet.hunger u.hunger).2 b3 ug
      · rw [applyPetUpdate_hunger]
        exact (clamp_bounds pet.hunger u.hunger).1
      · rw [applyPetUpdate_happiness]
        exact (clamp_bounds pet.happiness u.happiness).2 b5 up
      · rw [applyPetUpdate_happiness]
        exact (clamp_bounds pet.happiness u.happiness).1

/-- The stats update never touches pets, so pet bounds are preserved. -/
theorem updateUserStats_pets_bounds (s : Store) (uid : Nat) (a b c : Int)
    (hs : ∀ p ∈ mapValues s.pets, petInBounds p) :
    ∀ p ∈ mapValues (updateUserStats s uid a b c).2.pets, petInBounds p := by
  rw [(updateUserStats_frame s uid a b c).1]
  exact hs

/-- The pet step preserves the bounds invariant. -/
theorem completePetStep_preserves_bounds (s : Store) (uid : Nat) (cal : Int)
    (hs : ∀ p ∈ mapValues s.pets, petInBounds p) :
    ∀ p ∈ mapValues (completePetStep s uid cal).pets, petInBounds p := by
  unfold completePetStep
  cases hp : getPetByUserId s uid with
  | none => exact hs
  | some pet =>
    obtain ⟨b1, b2, b3, b4, b5, b6⟩ := hs pet (List.mem_of_find?_eq_some hp)
    exact updatePet_preserves_bounds s pet.id _ hs
      (fun h hm => mem_some_le (by omega) hm)
      (fun h hm => not_mem_none hm)
      (fun h hm => mem_some_le (by omega) hm)

theorem getUserWorkoutWithDetails_some {s : Store} {id : Nat}
    {uw : UserWorkout} {w : Workout}
    (h : getUserWorkoutWithDetails s id = some (uw, w)) :
    getUserWorkout s id = some uw ∧ getWorkout s uw.workoutId = some w := by
  unfold getUserWorkoutWithDetails at h
  cases h1 : getUserWorkout s id with
  | none => rw [h1] at h; cases h
  | some x =>
    rw [h1] at h
    dsimp only at h
    cases h2 : getWorkout s x.workoutId with
    | none => rw [h2] at h; cases h
    | some y =>
      rw [h2] at h
      dsimp only at h
      injection h with e
      injection e with e1 e2
      subst e1
      subst e2
      exact ⟨rfl, h2⟩

/-- C5: starting from a store whose pets all have health, hunger and
happiness in [0,100], each of the five public pet operations — feed, play,
groom, the workout-completion pet update, and a zod-validated PATCH —
leaves every stored pet's bounded attributes in [0,100]. -/
theorem pet_bounds_invariant (s : Store) (petId cid : Nat) (now : Date) (u : PetUpdate)
    (hs : ∀ p ∈ mapValues s.pets, petInBounds p) (hu : validPatch u = true) :
    (∀ p ∈ mapValues (feedRoute s petId now).2.pets, petInBounds p) ∧
    (∀ p ∈ mapValues (playRoute s petId now).2.pets, petInBounds p) ∧
    (∀ p ∈ mapValues (groomRoute s petId now).2.pets, petInBounds p) ∧
    (∀ p ∈ mapValues (completeWorkoutRoute s cid now).2.pets, petInBounds p) ∧
    (∀ p ∈ mapValues (patchPetRoute s petId u).2.pets, petInBounds p) := by
  refine ⟨?_, ?_, ?_, ?_, ?_⟩
  · unfold feedRoute
    cases hpet : getPet s petId with
    | none => exact hs
    | some pet =>
      obtain ⟨b1, b2, b3, b4, b5, b6⟩ := hs pet (mapGet_mem_values hpet)
      exact updatePet_preserves_bounds s petId _ hs
        (fun h hm => not_mem_none hm)
        (fun h hm => mem_some_le (by omega) hm)
        (fun h hm => not_mem_none hm)
  · unfold playRoute
    cases hpet : getPet s petId with
    | none => exact hs
    | some pet =>
      obtain ⟨b1, b2, b3, b4, b5, b6⟩ := hs pet (mapGet_mem_values hpet)
      exact updatePet_preserves_bounds s petId _ hs
        (fun h hm => not_mem_none hm)
        (fun h hm => mem_some_le (by omega) hm)
        (fun h hm => mem_some_le (by omega) hm)
  · unfold groomRoute
    cases hpet : getPet s petId with
    | none => exact hs
    | some pet =>
      obtain ⟨b1, b2, b3, b4, b5, b6⟩ := hs pet (mapGet_mem_values hpet)
      exact updatePet_preserves_bounds s petId _ hs
        (fun h hm => mem_some_le (by omega) hm)
        (fun h hm => not_mem_none hm)
        (fun h hm => not_mem_none hm)
  · cases hd : getUserWorkoutWithDetails s cid with
    | none =>
      unfold completeWorkoutRoute
      rw [hd]
      exact hs
    | some pr =>
      obtain ⟨uw, w⟩ := pr
      obtain ⟨huw, hw⟩ := getUserWorkoutWithDetails_some hd
      by_cases hc : uw.completed = true
      · have hstop : completeWorkoutRoute s cid now = (.alreadyCompleted, s) := by
          simp [completeWorkoutRoute, hd, hc]
        rw [hstop]
        exact hs
      · rw [completeWorkoutRoute_eq s cid now uw w huw hw (by simpa using hc)]
        exact completePetStep_preserves_bounds _ _ _
          (updateUserStats_pets_bounds _ _ _ _ _ hs)
  · have hvp := hu
    simp only [validPatch, Bool.and_eq_true] at hvp
    obtain ⟨⟨⟨⟨⟨⟨⟨h1, h2⟩, h3⟩, h4⟩, h5⟩, h6⟩, h7⟩, h8⟩ := hvp
    exact updatePet_preserves_bounds s petId u hs
      (fun h hm => by have hq := option_all_mem h4 h hm; simp at hq; exact hq.1)
      (fun h hm => by have hq := option_all_mem h5 h hm; simp at hq; exact hq.1)
      (fun h hm => by have hq := option_all_mem h6 h hm; simp at hq; exact hq.1)

/-- A patch supplying only hunger 80, valid under the PATCH zod schema. -/
def hungerPatch : PetUpdate := { hunger := some 80 }

/-- Witness for C5 at `petStore` (all pets in bounds) with the valid patch
`hungerPatch`. -/
theorem pet_bounds_invariant_witness :
    (∀ p ∈ mapValues petStore.pets, petInBounds p) ∧
    validPatch hungerPatch = true ∧
    ((∀ p ∈ mapValues (feedRoute petStore 1 dayB).2.pets, petInBounds p) ∧
     (∀ p ∈ mapValues (playRoute petStore 1 dayB).2.pets, petInBounds p) ∧
     (∀ p ∈ mapValues (groomRoute petStore 1 dayB).2.pets, petInBounds p) ∧
     (∀ p ∈ mapValues (completeWorkoutRoute petStore 1 dayB).2.pets, petInBounds p) ∧
     (∀ p ∈ mapValues (patchPetRoute petStore 1 hungerPatch).2.pets, petInBounds p)) :=
  ⟨by decide, by decide,
   pet_bounds_invariant petStore 1 1 dayB hungerPatch (by decide) (by decide)⟩

/-- The scheduling base store: one user, one workout template, no
assignments yet. -/
def schedStore : Store :=
  { users := [(1, freshUser)], pets := [], workouts := [(2, morningCardio)], userWorkouts := [],
    userIdCounter := 2, petIdCounter := 1, workoutIdCounter := 3, userWorkoutIdCounter := 1 }

/-- Store `schedStore` after scheduling workout 2 on `dayA` (creates assignment 1). -/
def schedA : Store := (scheduleWorkoutRoute schedStore 1 2 dayA).2

/-- Store `schedA` after additionally scheduling workout 2 on `dayB` (creates
assignment 2). -/
def schedAB : Store := (scheduleWorkoutRoute schedA 1 2 dayB).2

/-- The payload of a 200 duplicate-path response. -/
def ScheduleResult.existingPayload : ScheduleResult → Option (UserWorkout × Option Workout)
  | .existing p => p
  | _ => none

/-- Same calendar day as `dayA`, different time of day. -/
def dayALater : Date := { year := 2024, month := 4, day := 10, timeOfDay := 20 }

/-- Counterexample to C2: after scheduling (user 1, workout 2) on `dayA`
and then on `dayB`, re-requesting `dayB` at another time of day takes the
duplicate path (the same-day assignment is the one with id 2), yet the
route returns the assignment with id 1, scheduled on `dayA` — not the
existing same-day assignment. -/
theorem schedule_returns_wrong_day_assignment :
    ((mapValues schedAB.userWorkouts).any fun uw =>
        uw.workoutId == 2 && sameDay uw.scheduledFor dayBLater) = true ∧
    (scheduleWorkoutRoute schedAB 1 2 dayBLater).2 = schedAB ∧
    (((scheduleWorkoutRoute schedAB 1 2 dayBLater).1.existingPayload).map
        (fun e => (e.1.id, e.1.scheduledFor))) = some (1, dayA) ∧
    sameDay dayA dayBLater = false ∧
    ((mapGet schedAB.userWorkouts 2).map
        (fun uw => (uw.id, sameDay uw.scheduledFor dayBLater))) = some (2, true) :=
  ⟨by decide, by decide, by decide, by decide, by decide⟩

/-- C2 (amended): when a same-day assignment for the same user and
workoutId exists, the request creates nothing (store unchanged) and
returns 200 with the first stored assignment of that user whose workoutId
matches — which may be scheduled on a different calendar day.  When no
same-day assignment exists, a fresh distinct assignment is created and
appended, so scheduling on two different calendar dates yields two
distinct assignments. -/
theorem schedule_idempotent_amended (s : Store) (uid wid : Nat) (d : Date) (w : Workout)
    (hw : getWorkout s wid = some w)
    (hids : ∀ p ∈ s.userWorkouts, p.1 = p.2.id ∧ p.2.id < s.userWorkoutIdCounter) :
    ((∃ uw ∈ mapValues s.userWorkouts,
        uw.userId = uid ∧ uw.workoutId = wid ∧ sameDay uw.scheduledFor d = true) →
      (scheduleWorkoutRoute s uid wid d).2 = s ∧
      ∃ e, (scheduleWorkoutRoute s uid wid d).1 = .existing (some e) ∧
        e.1 ∈ mapValues s.userWorkouts ∧ e.1.userId = uid ∧ e.1.workoutId = wid) ∧
    ((¬ ∃ uw ∈ mapValues s.userWorkouts,
        uw.userId = uid ∧ uw.workoutId = wid ∧ sameDay uw.scheduledFor d = true) →
      ∃ uw', (scheduleWorkoutRoute s uid wid d).1 = .created uw' ∧
        (scheduleWorkoutRoute s uid wid d).2.userWorkouts =
          s.userWorkouts ++ [(uw'.id, uw')] ∧
        uw'.userId = uid ∧ uw'.workoutId = wid ∧ uw'.scheduledFor = d ∧
        uw'.completed = false ∧ uw'.completedAt = none ∧
        ∀ uw ∈ mapValues s.userWorkouts, uw.id ≠ uw'.id) := by
  have hdup_iff : ((getUserWorkoutsByUserId s uid).any fun uw =>
      uw.1.workoutId == wid && sameDay uw.1.scheduledFor d) = true ↔
      (∃ uw ∈ mapValues s.userWorkouts,
        uw.userId = uid ∧ uw.workoutId = wid ∧ sameDay uw.scheduledFor d = true) := by
    rw [List.any_eq_true]
    constructor
    · rintro ⟨x, hx, hpred⟩
      unfold getUserWorkoutsByUserId at hx
      rw [List.mem_map] at hx
      obtain ⟨uwf, hmemf, rfl⟩ := hx
      rw [List.mem_filter] at hmemf
      obtain ⟨hval, huid⟩ := hmemf
      simp only [Bool.and_eq_true, beq_iff_eq] at hpred
      exact ⟨uwf, hval, by simpa using huid, hpred.1, hpred.2⟩
    · rintro ⟨uw, hval, huid, hwid, hsd⟩
      refine ⟨(uw, getWorkout s uw.workoutId), ?_, ?_⟩
      · unfold getUserWorkoutsByUserId
        rw [List.mem_map]
        exact ⟨uw, List.mem_filter.mpr ⟨hval, by simpa using huid⟩, rfl⟩
      · simp only [Bool.and_eq_true, beq_iff_eq]
        exact ⟨hwid, hsd⟩
  constructor
  · intro hP
    have hdup : ((getUserWorkoutsByUserId s uid).any fun uw =>
        uw.1.workoutId == wid && sameDay uw.1.scheduledFor d) = true := hdup_iff.mpr hP
    have hroute : scheduleWorkoutRoute s uid wid d =
        (.existing ((getUserWorkoutsByUserId s uid).find? fun uw => uw.1.workoutId == wid),
         s) := by
      simp [scheduleWorkoutRoute, hw, hdup]
    have h1 : ((getUserWorkoutsByUserId s uid).find? fun uw =>
        uw.1.workoutId == wid).isSome := by
      rw [List.find?_isSome]
      obtain ⟨uw, hval, huid, hwid, hsd⟩ := hP
      refine ⟨(uw, getWorkout s uw.workoutId), ?_, by simpa using hwid⟩
      unfold getUserWorkoutsByUserId
      rw [List.mem_map]
      exact ⟨uw, List.mem_filter.mpr ⟨hval, by simpa using huid⟩, rfl⟩
    obtain ⟨e, he⟩ := Option.isSome_iff_exists.mp h1
    have hmem := List.mem_of_find?_eq_some he
    unfold getUserWorkoutsByUserId at hmem
    rw [List.mem_map] at hmem
    obtain ⟨uwf, hmemf, rfl⟩ := hmem
    rw [List.mem_filter] at hmemf
    refine ⟨by rw [hroute], (uwf, getWorkout s uwf.workoutId), by simp [hroute, he], ?_, ?_, ?_⟩
    · exact hmemf.1
    · simpa using hmemf.2
    · simpa using List.find?_some he
  · intro hP
    have hdup : ((getUserWorkoutsByUserId s uid).any fun uw =>
        uw.1.workoutId == wid && sameDay uw.1.scheduledFor d) = false := by
      cases hany : ((getUserWorkoutsByUserId s uid).any fun uw =>
          uw.1.workoutId == wid && sameDay uw.1.scheduledFor d) with
      | false => rfl
      | true => exact absurd (hdup_iff.mp hany) hP
    have hnokey : (s.userWorkouts.any fun p => p.1 == s.userWorkoutIdCounter) = false := by
      cases hany : (s.userWorkouts.any fun p => p.1 == s.userWorkoutIdCounter) with
      | false => rfl
      | true =>
        rw [List.any_eq_true] at hany
        obtain ⟨p, hp, hpk⟩ := hany
        obtain ⟨he1, he2⟩ := hids p hp
        simp only [beq_iff_eq] at hpk
        omega
    refine ⟨{ id := s.userWorkoutIdCounter, userId := uid, workoutId := wid,
              completed := false, scheduledFor := d, completedAt := none },
      ?_, ?_, rfl, rfl, rfl, rfl, rfl, ?_⟩
    · simp [scheduleWorkoutRoute, hw, hdup, createUserWorkout]
    · simp only [scheduleWorkoutRoute, hw, hdup, createUserWorkout, Bool.false_eq_true,
        if_false]
      unfold mapSet
      rw [if_neg (by rw [hnokey]; exact Bool.false_ne_true)]
    · intro uw hmem
      unfold mapValues at hmem
      rw [List.mem_map] at hmem
      obtain ⟨p, hp, rfl⟩ := hmem
      obtain ⟨he1, he2⟩ := hids p hp
      dsimp only
      omega

/-- Witness for the amended C2 at `schedA` (one assignment, on `dayA`):
requesting the same calendar day at a different time takes the duplicate
path, and requesting a fresh day creates a distinct assignment. -/
theorem schedule_idempotent_amended_witness :
    getWorkout schedA 2 = some morningCardio ∧
    (∀ p ∈ schedA.userWorkouts, p.1 = p.2.id ∧ p.2.id < schedA.userWorkoutIdCounter) ∧
    (((∃ uw ∈ mapValues schedA.userWorkouts,
        uw.userId = 1 ∧ uw.workoutId = 2 ∧ sameDay uw.scheduledFor dayALater = true) →
      (scheduleWorkoutRoute schedA 1 2 dayALater).2 = schedA ∧
      ∃ e, (scheduleWorkoutRoute schedA 1 2 dayALater).1 = .existing (some e) ∧
        e.1 ∈ mapValues schedA.userWorkouts ∧ e.1.userId = 1 ∧ e.1.workoutId = 2) ∧
    ((¬ ∃ uw ∈ mapValues schedA.userWorkouts,
        uw.userId = 1 ∧ uw.workoutId = 2 ∧ sameDay uw.scheduledFor dayALater = true) →
      ∃ uw', (scheduleWorkoutRoute schedA 1 2 dayALater).1 = .created uw' ∧
        (scheduleWorkoutRoute schedA 1 2 dayALater).2.userWorkouts =
          schedA.userWorkouts ++ [(uw'.id, uw')] ∧
        uw'.userId = 1 ∧ uw'.workoutId = 2 ∧ uw'.scheduledFor = dayALater ∧
        uw'.completed = false ∧ uw'.completedAt = none ∧
        ∀ uw ∈ mapValues schedA.userWorkouts, uw.id ≠ uw'.id)) :=
  ⟨by decide, by decide,
   schedule_idempotent_amended schedA 1 2 dayALater morningCardio (by decide) (by decide)⟩

end FitPet
